import Mathlib

/-!
# Verification of the LLMSchema schema-extraction and rendering pipeline

This development gives a shallow embedding, in Lean 4, of the core data
model and operations of the LLMSchema repository (Go):

* the unified schema model (`internal/schema/types.go`),
* the relationship resolver (`findIncomingRelations` in
  `internal/formatter/multifile.go`),
* the exclusion filter (`filterExcludedTables` in `llmschema.go`),
* the per-backend catalog extractors for PostgreSQL, MySQL and SQLite
  (`internal/db/extractor.go`, `internal/db/mysql_extractor.go`,
  `internal/db/sqlite_extractor.go`), modelled as pure functions over a
  catalog snapshot (the rows the backend metadata queries would return),
* the document renderers (`internal/formatter/markdown.go`,
  `internal/formatter/multifile.go`), modelled as pure functions from the
  schema model to the emitted text.

Go slices become Lean lists, `*string` becomes `Option String`, Go maps
keyed by strings become association-style lookups over row lists, and the
fallible extraction loop becomes a function into `Except String`.
-/

namespace LLMSchema

/-- `schema.Column` from `internal/schema/types.go`.  The `EnumValues` and
`CheckConstraint` fields are the two optional fields used throughout the
formatters (`text.go`, `markdown.go`, `multifile.go`); a Go `nil` slice is
the empty list and a Go `nil` pointer is `none`. -/
structure Column where
  Name : String
  «Type» : String
  Nullable : Bool
  DefaultValue : Option String
  IsUnique : Bool
  EnumValues : List String
  CheckConstraint : Option String
deriving Repr, DecidableEq

/-- `schema.Relation` from `internal/schema/types.go` (an outgoing foreign
key, recorded from the owning table). -/
structure Relation where
  TargetTable : String
  TargetColumn : String
  SourceColumn : String
  Cardinality : String
deriving Repr, DecidableEq

/-- `schema.Index` from `internal/schema/types.go`. -/
structure Index where
  Name : String
  Columns : List String
  IsUnique : Bool
deriving Repr, DecidableEq

/-- `schema.Table` from `internal/schema/types.go`. -/
structure Table where
  Name : String
  Columns : List Column
  Relations : List Relation
  Indexes : List Index
  PrimaryKey : List String
deriving Repr, DecidableEq

/-- `schema.Schema` from `internal/schema/types.go`. -/
structure Schema where
  Tables : List Table
deriving Repr, DecidableEq

/-- `formatter.IncomingRelation` from `internal/formatter/multifile.go`:
a foreign key viewed from the referenced table. -/
structure IncomingRelation where
  SourceTable : String
  SourceColumn : String
  TargetTable : String
  TargetColumn : String
  Cardinality : String
deriving Repr, DecidableEq

/-- The `IncomingRelation` literal built inside the loop of
`findIncomingRelations` for a source table `t` and one of its relations
`r` (`multifile.go:244-250`). -/
def incomingOf (t : Table) (r : Relation) : IncomingRelation :=
  { SourceTable := t.Name
    SourceColumn := r.SourceColumn
    TargetTable := r.TargetTable
    TargetColumn := r.TargetColumn
    Cardinality := r.Cardinality }

/-- `findIncomingRelations` from `internal/formatter/multifile.go:238-256`:
the nested `for` loops over `s.Tables` and each table's `Relations`,
appending an `IncomingRelation` whenever `rel.TargetTable == tableName`. -/
def findIncomingRelations (tableName : String) (s : Schema) : List IncomingRelation :=
  s.Tables.foldl
    (fun acc t =>
      t.Relations.foldl
        (fun acc2 r => if r.TargetTable == tableName then acc2 ++ [incomingOf t r] else acc2)
        acc)
    []

/-- `filterExcludedTables` from `llmschema.go:180-197`.  The Go code
builds `excludeSet` (a set containing exactly the names of `excludeList`)
and keeps the tables whose name is not in the set; with an empty exclude
list it returns early without touching the schema. -/
def filterExcludedTables (s : Schema) (excludeList : List String) : Schema :=
  if excludeList.isEmpty then s
  else { Tables := s.Tables.filter (fun t => !(excludeList.contains t.Name)) }

/- ### Helper lemmas for the relationship resolver -/

/-- The inner loop of `findIncomingRelations` over one table's relations,
as an append of the filtered-and-mapped relation list. -/
theorem findIncoming_inner (tableName : String) (t : Table) (acc : List IncomingRelation)
    (rs : List Relation) :
    rs.foldl
      (fun acc2 r => if r.TargetTable == tableName then acc2 ++ [incomingOf t r] else acc2)
      acc
      = acc ++ (rs.filter (fun r => r.TargetTable == tableName)).map (incomingOf t) := by
  induction rs generalizing acc with
  | nil => simp
  | cons r rs ih =>
    rw [List.foldl_cons, List.filter_cons]
    cases hbeq : (r.TargetTable == tableName) with
    | true =>
      rw [ih]
      simp [List.append_assoc]
    | false =>
      rw [ih]
      simp

/-- The outer loop of `findIncomingRelations`, for an arbitrary
accumulator. -/
theorem findIncoming_outer (tableName : String) (acc : List IncomingRelation)
    (ts : List Table) :
    ts.foldl
      (fun acc t =>
        t.Relations.foldl
          (fun acc2 r => if r.TargetTable == tableName then acc2 ++ [incomingOf t r] else acc2)
          acc)
      acc
      = acc ++ ts.flatMap
          (fun t => (t.Relations.filter (fun r => r.TargetTable == tableName)).map (incomingOf t)) := by
  induction ts generalizing acc with
  | nil => simp
  | cons t ts ih =>
    rw [List.foldl_cons, findIncoming_inner, ih, List.flatMap_cons, List.append_assoc]

/-- C3: For every schema `S` and target table name `T`, the relationship
resolver returns exactly the `IncomingRelation` entries
`{SourceTable := A.Name, SourceColumn := r.SourceColumn,
TargetTable := r.TargetTable, TargetColumn := r.TargetColumn,
Cardinality := r.Cardinality}` for the pairs `(A, r)` with `A` a table of
`S`, `r` a relation of `A` and `r.TargetTable = T`, ordered by `S`'s table
order and, within one source table, that table's relation order (this is
the `flatMap`/`filter`/`map` normal form below); in particular, for tables
`A, B` where `A` carries the single relation `A.c → B.d` and `B` carries
none, resolving `B` yields exactly one `IncomingRelation`
`{SourceTable := A, SourceColumn := c, TargetColumn := d}`. -/
theorem C3_findIncomingRelations_characterization :
    (∀ (s : Schema) (tableName : String),
      findIncomingRelations tableName s
        = s.Tables.flatMap
            (fun t => (t.Relations.filter (fun r => r.TargetTable == tableName)).map (incomingOf t)))
    ∧ (∀ (aName bName c d card : String) (acols bcols : List Column)
        (aidx bidx : List Index) (apk bpk : List String) (brels : List Relation),
        (∀ r ∈ brels, r.TargetTable ≠ bName) →
        findIncomingRelations bName
          ⟨[⟨aName, acols, [⟨bName, d, c, card⟩], aidx, apk⟩,
            ⟨bName, bcols, brels, bidx, bpk⟩]⟩
          = [⟨aName, c, bName, d, card⟩]) := by
  have hmain : ∀ (s : Schema) (tableName : String),
      findIncomingRelations tableName s
        = s.Tables.flatMap
            (fun t => (t.Relations.filter (fun r => r.TargetTable == tableName)).map
              (incomingOf t)) := by
    intro s tableName
    have h := findIncoming_outer tableName [] s.Tables
    rw [findIncomingRelations, h, List.nil_append]
  refine ⟨hmain, ?_⟩
  intro aName bName c d card acols bcols aidx bidx apk bpk brels hb
  rw [hmain]
  have hfilter : brels.filter (fun r => r.TargetTable == bName) = [] := by
    apply List.filter_eq_nil_iff.mpr
    intro r hr
    simpa using hb r hr
  simp [hfilter, incomingOf]

/-- Witness for the hypothesis-bearing conjunct of
`C3_findIncomingRelations_characterization`: the two-table instance
`users`/`orders` with the single relation `orders.user_id → users.id`. -/
theorem C3_findIncomingRelations_characterization_witness :
    findIncomingRelations "users"
      ⟨[⟨"orders", [], [⟨"users", "id", "user_id", "N:1"⟩], [], ["id"]⟩,
        ⟨"users", [], [], [], ["id"]⟩]⟩
      = [⟨"orders", "user_id", "users", "id", "N:1"⟩] := by
  exact C3_findIncomingRelations_characterization.2 "orders" "users" "user_id" "id" "N:1"
    [] [] [] [] ["id"] ["id"] [] (by intro r hr; simp at hr)

/- ### The exclusion filter -/

/-- C6: The exclusion filter is idempotent — applying it twice with the
same exclude list yields the same `Tables` sequence as applying it once;
its result is always the original `Tables` sequence filtered (in place,
order-preserving, entries unmodified) by non-membership of the table name
in the exclude list; and excluding a name matching no table leaves the
schema unchanged (hence excluding an already-excluded or nonexistent name
again changes nothing). -/
theorem C6_filterExcludedTables_idempotent :
    (∀ (s : Schema) (l : List String),
      filterExcludedTables (filterExcludedTables s l) l = filterExcludedTables s l)
    ∧ (∀ (s : Schema) (l : List String),
      (filterExcludedTables s l).Tables
        = s.Tables.filter (fun t => !(l.contains t.Name)))
    ∧ (∀ (s : Schema) (n : String),
      (∀ t ∈ s.Tables, t.Name ≠ n) → filterExcludedTables s [n] = s) := by
  refine ⟨?_, ?_, ?_⟩
  · intro s l
    by_cases hl : l.isEmpty
    · simp [filterExcludedTables, hl]
    · simp [filterExcludedTables, hl, List.filter_filter]
  · intro s l
    by_cases hl : l.isEmpty
    · have : l = [] := List.isEmpty_iff.mp hl
      simp [filterExcludedTables, hl, this]
    · simp [filterExcludedTables, hl]
  · intro s n h
    have : s.Tables.filter (fun t => !([n].contains t.Name)) = s.Tables := by
      apply List.filter_eq_self.mpr
      intro t ht
      simpa using h t ht
    cases s with
    | mk ts => simp_all [filterExcludedTables]

/-- Witness for `C6_filterExcludedTables_idempotent`: excluding the
nonexistent name `"ghost"` from a one-table schema leaves it unchanged. -/
theorem C6_filterExcludedTables_idempotent_witness :
    filterExcludedTables ⟨[⟨"users", [], [], [], ["id"]⟩]⟩ ["ghost"]
      = ⟨[⟨"users", [], [], [], ["id"]⟩]⟩ := by
  exact C6_filterExcludedTables_idempotent.2.2 ⟨[⟨"users", [], [], [], ["id"]⟩]⟩ "ghost"
    (by intro t ht; simp at ht; simp [ht])

/- ### The all-or-nothing extraction loop (`ExtractSchema`) -/

/-- The per-table loop shared verbatim by `Extractor.ExtractSchema`
(`internal/db/extractor.go:26-43`), `MySQLExtractor.ExtractSchema`
(`internal/db/mysql_extractor.go:28-45`) and
`SQLiteExtractor.ExtractSchema`: iterate the table names in order, call
`extractTable` on each, abort on the first failure wrapping its error as
`failed to extract table <name>: <err>`, otherwise accumulate the tables
in iteration order. -/
def extractTablesLoop (extractTable : String → Except String Table) :
    List String → Except String (List Table)
  | [] => .ok []
  | n :: rest =>
    match extractTable n with
    | .error e => .error ("failed to extract table " ++ n ++ ": " ++ e)
    | .ok t =>
      match extractTablesLoop extractTable rest with
      | .error e => .error e
      | .ok ts => .ok (t :: ts)

/-- `ExtractSchema` over an abstract `describeTable` operation: the loop
result wrapped into a `Schema` (`&schema.Schema{Tables: extractedTables}`).
The Go function returns `(nil, err)` on failure — the `Except` error case
carries no schema value, matching "no partially-populated schema". -/
def ExtractSchema (extractTable : String → Except String Table)
    (tableNames : List String) : Except String Schema :=
  match extractTablesLoop extractTable tableNames with
  | .error e => .error e
  | .ok ts => .ok ⟨ts⟩

theorem extractTablesLoop_ok (extractTable : String → Except String Table)
    (f : String → Table) :
    ∀ (names : List String), (∀ n ∈ names, extractTable n = .ok (f n)) →
      extractTablesLoop extractTable names = .ok (names.map f) := by
  intro names
  induction names with
  | nil => intro _; rfl
  | cons n rest ih =>
    intro h
    have hn : extractTable n = .ok (f n) := h n (List.mem_cons_self n rest)
    have hrest := ih (fun m hm => h m (List.mem_cons_of_mem n hm))
    simp [extractTablesLoop, hn, hrest]

theorem extractTablesLoop_error (extractTable : String → Except String Table)
    (n : String) (e : String) (post : List String) (hn : extractTable n = .error e) :
    ∀ (pre : List String), (∀ m ∈ pre, ∃ t, extractTable m = .ok t) →
      extractTablesLoop extractTable (pre ++ n :: post)
        = .error ("failed to extract table " ++ n ++ ": " ++ e) := by
  intro pre
  induction pre with
  | nil =>
    intro _
    simp [extractTablesLoop, hn]
  | cons m pre ih =>
    intro h
    obtain ⟨t, ht⟩ := h m (List.mem_cons_self m pre)
    have hrest := ih (fun m' hm' => h m' (List.mem_cons_of_mem m hm'))
    simp [extractTablesLoop, ht, hrest]

theorem extractTablesLoop_not_ok (extractTable : String → Except String Table) :
    ∀ (names : List String), (∃ n ∈ names, ∀ t, extractTable n ≠ .ok t) →
      ∀ ts, extractTablesLoop extractTable names ≠ .ok ts := by
  intro names
  induction names with
  | nil => rintro ⟨n, hn, _⟩; simp at hn
  | cons m rest ih =>
    rintro ⟨n, hn, hne⟩ ts
    rcases List.mem_cons.mp hn with heq | hmem
    · subst heq
      cases hm : extractTable n with
      | error e => simp [extractTablesLoop, hm]
      | ok t => exact absurd hm (hne t)
    · cases hm : extractTable m with
      | error e => simp [extractTablesLoop, hm]
      | ok t =>
        have hrec := ih ⟨n, hmem, hne⟩
        cases hloop : extractTablesLoop extractTable rest with
        | error e => simp [extractTablesLoop, hm, hloop]
        | ok ts2 => exact absurd hloop (hrec ts2)

/-- C2: Schema extraction is all-or-nothing.  (1) If every table name
describes successfully, `ExtractSchema` returns the schema holding exactly
the described tables in iteration order.  (2) When the run reaches a name
whose description fails (all names before it having succeeded), the whole
run returns the error `failed to extract table <name>: <err>` — an error
string that contains the failing table's name.  (3) If any name in the
sequence cannot be described, no schema value is ever returned. -/
theorem C2_ExtractSchema_all_or_nothing :
    (∀ (extractTable : String → Except String Table) (f : String → Table)
        (names : List String),
      (∀ n ∈ names, extractTable n = .ok (f n)) →
      ExtractSchema extractTable names = .ok ⟨names.map f⟩)
    ∧ (∀ (extractTable : String → Except String Table)
        (pre : List String) (n : String) (post : List String) (e : String),
      (∀ m ∈ pre, ∃ t, extractTable m = .ok t) →
      extractTable n = .error e →
      ExtractSchema extractTable (pre ++ n :: post)
        = .error ("failed to extract table " ++ n ++ ": " ++ e)
        ∧ ∃ a b, ("failed to extract table " ++ n ++ ": " ++ e) = a ++ n ++ b)
    ∧ (∀ (extractTable : String → Except String Table) (names : List String),
      (∃ n ∈ names, ∀ t, extractTable n ≠ .ok t) →
      ∀ s, ExtractSchema extractTable names ≠ .ok s) := by
  refine ⟨?_, ?_, ?_⟩
  · intro extractTable f names h
    simp [ExtractSchema, extractTablesLoop_ok extractTable f names h]
  · intro extractTable pre n post e hpre hn
    refine ⟨?_, "failed to extract table ", ": " ++ e, ?_⟩
    · simp [ExtractSchema, extractTablesLoop_error extractTable n e post hn pre hpre]
    · simp [String.append_assoc]
  · intro extractTable names hfail s
    cases hloop : extractTablesLoop extractTable names with
    | error e => simp [ExtractSchema, hloop]
    | ok ts => exact absurd hloop (extractTablesLoop_not_ok extractTable names hfail ts)

/-- Witness for `C2_ExtractSchema_all_or_nothing`: a describe operation
that succeeds on `users` and fails on `orders`, run on
`["users", "orders"]`, aborts with the error naming `orders`, and a
run over `["users"]` alone succeeds. -/
theorem C2_ExtractSchema_all_or_nothing_witness :
    ExtractSchema
      (fun n => if n = "orders" then .error "boom" else .ok ⟨n, [], [], [], []⟩)
      ["users", "orders"]
      = .error ("failed to extract table " ++ "orders" ++ ": " ++ "boom")
    ∧ ExtractSchema
      (fun n => if n = "orders" then .error "boom" else .ok ⟨n, [], [], [], []⟩)
      ["users"]
      = .ok ⟨[⟨"users", [], [], [], []⟩]⟩ := by
  constructor
  · exact (C2_ExtractSchema_all_or_nothing.2.1
      (fun n => if n = "orders" then .error "boom" else .ok ⟨n, [], [], [], []⟩)
      ["users"] "orders" [] "boom"
      (by intro m hm; simp at hm; subst hm; exact ⟨⟨"users", [], [], [], []⟩, by simp⟩)
      (by simp)).1
  · exact C2_ExtractSchema_all_or_nothing.1
      (fun n => if n = "orders" then .error "boom" else .ok ⟨n, [], [], [], []⟩)
      (fun n => ⟨n, [], [], [], []⟩) ["users"]
      (by intro m hm; simp at hm; subst hm; simp)

/- ### Multi-file naming (`getFileExtension`, overview and table files) -/

/-- `getFileExtension` from `internal/formatter/multifile.go:258-263`. -/
def getFileExtension (outputFormat : String) : String :=
  if outputFormat == "markdown" then ".md" else ".txt"

/-- The overview file's base name, from `writeOverview`
(`multifile.go:57`): `filepath.Join(f.OutputDir, "_overview"+ext)`. -/
def overviewFileName (outputFormat : String) : String :=
  "_overview" ++ getFileExtension outputFormat

/-- A per-table file's base name, from `writeTableFile`
(`multifile.go:129`): `filepath.Join(f.OutputDir, table.Name+ext)`. -/
def tableFileName (tableName outputFormat : String) : String :=
  tableName ++ getFileExtension outputFormat

/-- C10 counterexample: a table named `_overview` — a name every supported
backend accepts, and which the code nowhere rules out — produces exactly
the overview's file name, in both renderings, so the claim "the per-table
file name never equals the overview file name" fails. -/
theorem C10_overview_collision_counterexample :
    tableFileName "_overview" "markdown" = overviewFileName "markdown"
    ∧ tableFileName "_overview" "text" = overviewFileName "text" := by
  exact ⟨rfl, rfl⟩

/-- C10 (amended): for every table name other than `_overview` itself, the
per-table file name differs from the overview file name, for every output
format; only a table literally named `_overview` collides. -/
theorem C10_overview_distinct_amended (tableName outputFormat : String)
    (h : tableName ≠ "_overview") :
    tableFileName tableName outputFormat ≠ overviewFileName outputFormat := by
  intro heq
  apply h
  have hdata : tableName.data ++ (getFileExtension outputFormat).data
      = "_overview".data ++ (getFileExtension outputFormat).data := by
    have h1 := congrArg String.data heq
    simpa [tableFileName, overviewFileName, String.data_append] using h1
  exact String.ext (List.append_cancel_right hdata)

/-- Witness for `C10_overview_distinct_amended` at `users` / markdown. -/
theorem C10_overview_distinct_amended_witness :
    tableFileName "users" "markdown" ≠ overviewFileName "markdown" := by
  exact C10_overview_distinct_amended "users" "markdown" (by decide)

/- ### PostgreSQL catalog adapter (`internal/db/extractor.go`) -/

/-- One row of the `information_schema.columns` query in
`Extractor.extractColumns` (columns selected at `extractor.go:172-193`). -/
structure PGColumnRow where
  column_name : String
  data_type : String
  is_nullable : String
  column_default : Option String
  udt_name : String
  character_maximum_length : Option Nat
deriving Repr, DecidableEq

/-- A PostgreSQL catalog snapshot: the rows each metadata query of
`internal/db/extractor.go` would return for the configured schema.
`uniqueConstraints` lists, per table, the column lists of the table's
`UNIQUE`-typed constraints (`information_schema.table_constraints` joined
with `constraint_column_usage`); `enumRows` is the `pg_enum` join of
`extractEnumValuesMap`, ordered by `(typname, enumsortorder)` as its
`ORDER BY` demands; `indexes` are the non-primary index rows of
`extractIndexes`; `tables` is the `getTableNames` default listing. -/
structure PGCatalog where
  tables : List String
  columns : String → List PGColumnRow
  uniqueConstraints : String → List (List String)
  primaryKey : String → List String
  foreignKeys : String → List (String × String × String)
  indexes : String → List (String × Bool × List String)
  enumRows : List (String × String)

/-- `varcharType` constant from `extractor.go:10`. -/
def varcharType : String := "varchar"

/-- `normalizeUdtName` from `extractor.go:148-168`. -/
def normalizeUdtName (udtName : String) : String :=
  if udtName = "int4" then "integer"
  else if udtName = "int8" then "bigint"
  else if udtName = "int2" then "smallint"
  else if udtName = "float4" then "real"
  else if udtName = "float8" then "double precision"
  else if udtName = "bool" then "boolean"
  else if udtName = varcharType then varcharType
  else udtName

/-- `normalizePostgresType` from `extractor.go:113-146`. -/
def normalizePostgresType (dataType udtName : String)
    (charMaxLength : Option Nat) : String :=
  if dataType = "timestamp with time zone" then "timestamptz"
  else if dataType = "timestamp without time zone" then "timestamp"
  else if dataType = "time with time zone" then "timetz"
  else if dataType = "time without time zone" then "time"
  else if dataType = "character varying" then
    match charMaxLength with
    | some n => "varchar(" ++ toString n ++ ")"
    | none => varcharType
  else if dataType = "character" then
    match charMaxLength with
    | some n => "char(" ++ toString n ++ ")"
    | none => "char"
  else if dataType = "ARRAY" then
    if udtName.startsWith "_" then normalizeUdtName (udtName.drop 1) ++ "[]"
    else "array"
  else if dataType = "USER-DEFINED" then udtName
  else dataType

/-- The `is_unique` column computed by the `CASE WHEN EXISTS` subquery of
`Extractor.extractColumns` (`extractor.go:178-187`): true iff the column
name occurs in some `UNIQUE`-typed constraint of the table (of any arity —
the subquery only matches the constraint and one of its member columns). -/
def pgIsUnique (cat : PGCatalog) (tableName columnName : String) : Bool :=
  (cat.uniqueConstraints tableName).any (fun uc => uc.contains columnName)

/-- `Extractor.extractEnumValuesMap` (`extractor.go:253-284`): one batched
query filtered by `typname = ANY($2)`, whose rows are folded into a map
from type name to the labels in row order.  The returned function is the
map lookup; a type absent from the rows yields `[]` (the `ok = false`
case of the Go map access). -/
def pgExtractEnumValuesMap (cat : PGCatalog) (enumTypeNames : List String) :
    String → List String :=
  fun ty =>
    (((cat.enumRows.filter (fun r => enumTypeNames.contains r.1))).filter
      (fun r => r.1 == ty)).map (fun r => r.2)

/-- `Extractor.extractColumns` (`extractor.go:171-251`): first pass maps
the rows to columns (normalizing the type and computing `is_unique`) and
collects the `USER-DEFINED` type names; the second pass — executed only
when enum types were found — performs the single `extractEnumValuesMap`
call and overwrites `EnumValues` of the columns whose type is a key of the
map.  The second component counts the enum-lookup queries issued (the one
call site at `extractor.go:237`, guarded by `len(enumTypes) > 0`). -/
def pgExtractColumns (cat : PGCatalog) (tableName : String) :
    List Column × Nat :=
  let rows := cat.columns tableName
  let cols := rows.map (fun r =>
    { Name := r.column_name
      «Type» := normalizePostgresType r.data_type r.udt_name r.character_maximum_length
      Nullable := r.is_nullable == "YES"
      DefaultValue := r.column_default
      IsUnique := pgIsUnique cat tableName r.column_name
      EnumValues := []
      CheckConstraint := none })
  let enumTypes := (rows.filter (fun r => r.data_type == "USER-DEFINED")).map
    (fun r => r.udt_name)
  if enumTypes.isEmpty then (cols, 0)
  else
    let m := pgExtractEnumValuesMap cat enumTypes
    (cols.map (fun c => if (m c.«Type»).isEmpty then c else { c with EnumValues := m c.«Type» }), 1)

/-- `Extractor.extractRelations` (`extractor.go:322-361`): each foreign-key
row becomes a `Relation` with `Cardinality` hardcoded to `N:1`. -/
def pgExtractRelations (cat : PGCatalog) (tableName : String) : List Relation :=
  (cat.foreignKeys tableName).map (fun r =>
    { SourceColumn := r.1, TargetTable := r.2.1, TargetColumn := r.2.2
      Cardinality := "N:1" })

/-- `Extractor.extractIndexes` (`extractor.go:363-399`). -/
def pgExtractIndexes (cat : PGCatalog) (tableName : String) : List Index :=
  (cat.indexes tableName).map (fun r =>
    { Name := r.1, IsUnique := r.2.1, Columns := r.2.2 })

/-- `Extractor.extractTable` (`extractor.go:78-111`). -/
def pgExtractTable (cat : PGCatalog) (tableName : String) : Table :=
  { Name := tableName
    Columns := (pgExtractColumns cat tableName).1
    Relations := pgExtractRelations cat tableName
    Indexes := pgExtractIndexes cat tableName
    PrimaryKey := cat.primaryKey tableName }

/-- `Extractor.getTableNames` (`extractor.go:48-76`): explicit names are
used verbatim; otherwise the catalog's (alphabetical) listing. -/
def pgGetTableNames (cat : PGCatalog) (requestedTables : List String) : List String :=
  if requestedTables.isEmpty then cat.tables else requestedTables

/-- `Extractor.ExtractSchema` (`extractor.go:28-45`) over a total catalog
snapshot (no query of the snapshot can fail, so the loop always takes its
success path). -/
def pgExtractSchema (cat : PGCatalog) (requestedTables : List String) : Schema :=
  ⟨(pgGetTableNames cat requestedTables).map (pgExtractTable cat)⟩

/- ### MySQL catalog adapter (`internal/db/mysql_extractor.go`) -/

/-- One row of the `information_schema.columns` query in
`MySQLExtractor.extractColumns` (`mysql_extractor.go:115-136`). -/
structure MySQLColumnRow where
  column_name : String
  column_type : String
  is_nullable : String
  column_default : Option String
  data_type : String
deriving Repr, DecidableEq

/-- A MySQL catalog snapshot, mirroring `PGCatalog`.  `uniqueConstraints`
holds the column lists of `UNIQUE`-typed constraints
(`table_constraints` joined with `key_column_usage`); an `indexes` row is
`(index_name, non_unique = 0, GROUP_CONCAT(column_name))`. -/
structure MySQLCatalog where
  tables : List String
  columns : String → List MySQLColumnRow
  uniqueConstraints : String → List (List String)
  primaryKey : String → List String
  foreignKeys : String → List (String × String × String)
  indexes : String → List (String × Bool × String)

/-- The `is_unique` column of `MySQLExtractor.extractColumns`
(`mysql_extractor.go:121-131`): the same `CASE WHEN EXISTS` shape as the
PostgreSQL query — membership in any `UNIQUE`-typed constraint. -/
def mysqlIsUnique (cat : MySQLCatalog) (tableName columnName : String) : Bool :=
  (cat.uniqueConstraints tableName).any (fun uc => uc.contains columnName)

/-- The single-quote character (written via its code point to keep the
source free of quote-escape literals). -/
def quoteChar : Char := Char.ofNat 39

/-- `strings.Split(s, ",")` on the character list of `s`. -/
def splitOnComma : List Char → List (List Char)
  | [] => [[]]
  | c :: rest =>
    match splitOnComma rest with
    | [] => [[]]
    | p :: ps => if c = ',' then [] :: p :: ps else (c :: p) :: ps

/-- `strings.TrimSpace` on a character list. -/
def trimSpaceChars (l : List Char) : List Char :=
  (((l.dropWhile (fun c => c.isWhitespace)).reverse.dropWhile
    (fun c => c.isWhitespace))).reverse

/-- The quote-stripping step of `MySQLExtractor.extractEnumValues`
(`mysql_extractor.go:212-214`): `part[1 : len(part)-1]` when the part has
length at least 2 and is surrounded by single quotes. -/
def stripQuotes (l : List Char) : List Char :=
  if 2 ≤ l.length ∧ l.head? = some quoteChar ∧ l.getLast? = some quoteChar then
    (l.drop 1).dropLast
  else l

/-- `strings.Index(s, c)` for a single character, on the character list. -/
def indexOfChar (l : List Char) (c : Char) : Option Nat :=
  match l with
  | [] => none
  | x :: rest => if x = c then some 0 else (indexOfChar rest c).map (· + 1)

/-- `strings.LastIndex(s, c)` for a single character. -/
def lastIndexOfChar (l : List Char) (c : Char) : Option Nat :=
  (indexOfChar l.reverse c).map (fun i => l.length - 1 - i)

/-- `strings.HasPrefix(columnType, "enum(")` specialised to its constant
argument. -/
def startsWithEnumParen : List Char → Bool
  | 'e' :: 'n' :: 'u' :: 'm' :: '(' :: _ => true
  | _ => false

/-- `MySQLExtractor.extractEnumValues` (`mysql_extractor.go:190-219`):
parse the `enum(...)` type string — `.ok none` is Go's `(nil, nil)` for a
non-enum-prefixed type, `.error` its invalid-format error; otherwise the
text between the first `(` and the last `)` is split on commas and each
part is trimmed and quote-stripped.  (Go indexes bytes; the delimiters are
ASCII so the character-list model slices identically.) -/
def extractEnumValues (columnType : String) : Except String (Option (List String)) :=
  if startsWithEnumParen columnType.data then
    match indexOfChar columnType.data '(', lastIndexOfChar columnType.data ')' with
    | some start, some stop =>
      if stop ≤ start then .error ("invalid enum type format: " ++ columnType)
      else
        let enumList := (columnType.data.drop (start + 1)).take (stop - start - 1)
        .ok (some ((splitOnComma enumList).map
          (fun p => String.mk (stripQuotes (trimSpaceChars p)))))
    | _, _ => .error ("invalid enum type format: " ++ columnType)
  else .ok none

/-- The first-pass column of `MySQLExtractor.extractColumns`
(`mysql_extractor.go:147-172`). -/
def mysqlColumnOfRow (cat : MySQLCatalog) (tableName : String)
    (r : MySQLColumnRow) : Column :=
  { Name := r.column_name
    «Type» := r.column_type
    Nullable := r.is_nullable == "YES"
    DefaultValue := r.column_default
    IsUnique := mysqlIsUnique cat tableName r.column_name
    EnumValues := []
    CheckConstraint := none }

/-- The combined effect of both passes of `MySQLExtractor.extractColumns`
on a single row: rows whose `data_type` is `enum` get their `EnumValues`
filled by parsing their own `column_type` string (`extractEnumValues` at
`mysql_extractor.go:179-185` — no catalog lookup), a parse error
aborting; other rows keep the first-pass column. -/
def mysqlColumnStep (cat : MySQLCatalog) (tableName : String)
    (r : MySQLColumnRow) : Except String Column :=
  let col := mysqlColumnOfRow cat tableName r
  if r.data_type == "enum" then
    match extractEnumValues r.column_type with
    | .error e => .error e
    | .ok none => .ok col
    | .ok (some vs) => .ok { col with EnumValues := vs }
  else .ok col

/-- `MySQLExtractor.extractColumns` (`mysql_extractor.go:114-188`) as the
row-wise loop over `mysqlColumnStep`, aborting at the first error. -/
def mysqlColumnsLoop (cat : MySQLCatalog) (tableName : String) :
    List MySQLColumnRow → Except String (List Column)
  | [] => .ok []
  | r :: rest =>
    match mysqlColumnStep cat tableName r with
    | .error e => .error e
    | .ok c =>
      match mysqlColumnsLoop cat tableName rest with
      | .error e => .error e
      | .ok cs => .ok (c :: cs)

/-- `MySQLExtractor.extractRelations` (`mysql_extractor.go:251-284`):
`Cardinality` hardcoded to `N:1`. -/
def mysqlExtractRelations (cat : MySQLCatalog) (tableName : String) : List Relation :=
  (cat.foreignKeys tableName).map (fun r =>
    { SourceColumn := r.1, TargetTable := r.2.1, TargetColumn := r.2.2
      Cardinality := "N:1" })

/-- `MySQLExtractor.extractIndexes` (`mysql_extractor.go:287-324`): the
`GROUP_CONCAT` column string is split on commas. -/
def mysqlExtractIndexes (cat : MySQLCatalog) (tableName : String) : List Index :=
  (cat.indexes tableName).map (fun r =>
    { Name := r.1, IsUnique := r.2.1, Columns := r.2.2.splitOn "," })

/-- `MySQLExtractor.extractTable` (`mysql_extractor.go:79-111`). -/
def mysqlExtractTable (cat : MySQLCatalog) (tableName : String) :
    Except String Table :=
  match mysqlColumnsLoop cat tableName (cat.columns tableName) with
  | .error e => .error ("failed to extract columns: " ++ e)
  | .ok cols =>
    .ok { Name := tableName
          Columns := cols
          Relations := mysqlExtractRelations cat tableName
          Indexes := mysqlExtractIndexes cat tableName
          PrimaryKey := cat.primaryKey tableName }

/-- `MySQLExtractor.ExtractSchema` (`mysql_extractor.go:28-45`), routed
through the shared all-or-nothing loop. -/
def mysqlExtractSchema (cat : MySQLCatalog) (requestedTables : List String) :
    Except String Schema :=
  ExtractSchema (mysqlExtractTable cat)
    (if requestedTables.isEmpty then cat.tables else requestedTables)

/- ### SQLite catalog adapter (`internal/db/sqlite_extractor.go`) -/

/-- One row of `PRAGMA table_info` as scanned by
`SQLiteExtractor.extractColumns` (`sqlite_extractor.go:124-131`). -/
structure SQLiteTableInfoRow where
  cid : Nat
  name : String
  colType : String
  notnull : Nat
  dflt_value : Option String
  pk : Nat
deriving Repr, DecidableEq

/-- One row of `PRAGMA index_list` (`sqlite_extractor.go:184-190`).  The
pragma's `partial` column is named `partialCol` here. -/
structure SQLiteIndexListRow where
  seq : Nat
  name : String
  unique : Nat
  origin : String
  partialCol : Nat
deriving Repr, DecidableEq

/-- One row of `PRAGMA foreign_key_list`
(`sqlite_extractor.go:270-275`); the Go scan names `from`/`to`/`match`
become `fromCol`/`toCol`/`matchClause`. -/
structure SQLiteFKRow where
  id : Nat
  seq : Nat
  table : String
  fromCol : String
  toCol : String
  onUpdate : String
  onDelete : String
  matchClause : String
deriving Repr, DecidableEq

/-- An SQLite catalog snapshot: `tableInfo`, `indexList` and
`foreignKeys` are the pragma row lists per table; `indexInfo` maps an
index name to the (nullable) column names of its `PRAGMA index_info`
rows. -/
structure SQLiteCatalog where
  tables : List String
  tableInfo : String → List SQLiteTableInfoRow
  indexList : String → List SQLiteIndexListRow
  indexInfo : String → List (Option String)
  foreignKeys : String → List SQLiteFKRow

/-- `SQLiteExtractor.isColumnUnique` (`sqlite_extractor.go:169-226`):
a primary-key column is immediately `false`; otherwise scan `index_list`
for a unique index whose `index_info` columns (the non-NULL ones) are
exactly `[columnName]`. -/
def sqliteIsColumnUnique (cat : SQLiteCatalog) (tableName columnName : String)
    (pkColumns : List String) : Bool :=
  if pkColumns.contains columnName then false
  else
    (cat.indexList tableName).any (fun idx =>
      idx.unique == 1 && ((cat.indexInfo idx.name).filterMap id == [columnName]))

/-- `SQLiteExtractor.extractColumns` (`sqlite_extractor.go:112-166`):
map `table_info` rows to columns (collecting the `pk > 0` names in row
order), then fill `IsUnique` per column via `isColumnUnique`. -/
def sqliteExtractColumns (cat : SQLiteCatalog) (tableName : String) : List Column :=
  let rows := cat.tableInfo tableName
  let pkColumns := (rows.filter (fun r => decide (0 < r.pk))).map (fun r => r.name)
  rows.map (fun r =>
    { Name := r.name
      «Type» := r.colType
      Nullable := r.notnull == 0
      DefaultValue := r.dflt_value
      IsUnique := sqliteIsColumnUnique cat tableName r.name pkColumns
      EnumValues := []
      CheckConstraint := none })

/-- `SQLiteExtractor.extractPrimaryKey` (`sqlite_extractor.go:229-256`). -/
def sqliteExtractPrimaryKey (cat : SQLiteCatalog) (tableName : String) : List String :=
  ((cat.tableInfo tableName).filter (fun r => decide (0 < r.pk))).map (fun r => r.name)

/-- `SQLiteExtractor.extractRelations` (`sqlite_extractor.go:259-289`):
`Cardinality` hardcoded to `N:1`. -/
def sqliteExtractRelations (cat : SQLiteCatalog) (tableName : String) : List Relation :=
  (cat.foreignKeys tableName).map (fun r =>
    { SourceColumn := r.fromCol, TargetTable := r.table, TargetColumn := r.toCol
      Cardinality := "N:1" })

/-- `SQLiteExtractor.extractIndexes` (`sqlite_extractor.go:292-351`):
skip `sqlite_autoindex`-prefixed names, resolve columns through
`index_info`, keep only indexes with at least one column. -/
def sqliteExtractIndexes (cat : SQLiteCatalog) (tableName : String) : List Index :=
  ((cat.indexList tableName).filter
    (fun idx => !(idx.name.startsWith "sqlite_autoindex"))).filterMap
    (fun idx =>
      let cols := (cat.indexInfo idx.name).filterMap id
      if cols.isEmpty then none
      else some { Name := idx.name, IsUnique := idx.unique == 1, Columns := cols })

/-- `SQLiteExtractor.extractTable` (`sqlite_extractor.go:77-109`). -/
def sqliteExtractTable (cat : SQLiteCatalog) (tableName : String) : Table :=
  { Name := tableName
    Columns := sqliteExtractColumns cat tableName
    Relations := sqliteExtractRelations cat tableName
    Indexes := sqliteExtractIndexes cat tableName
    PrimaryKey := sqliteExtractPrimaryKey cat tableName }

/-- `SQLiteExtractor.ExtractSchema` (`sqlite_extractor.go:26-43`) over a
total catalog snapshot. -/
def sqliteExtractSchema (cat : SQLiteCatalog) (requestedTables : List String) : Schema :=
  ⟨(if requestedTables.isEmpty then cat.tables else requestedTables).map
    (sqliteExtractTable cat)⟩

/- ### C5: every extracted relation is tagged N:1 -/

theorem extractTablesLoop_mem_ok (extractTable : String → Except String Table) :
    ∀ (names : List String) (ts : List Table),
      extractTablesLoop extractTable names = .ok ts →
      ∀ t ∈ ts, ∃ n ∈ names, extractTable n = .ok t := by
  intro names
  induction names with
  | nil =>
    intro ts h t ht
    simp [extractTablesLoop] at h
    subst h
    simp at ht
  | cons n rest ih =>
    intro ts h t ht
    cases hn : extractTable n with
    | error e => simp [extractTablesLoop, hn] at h
    | ok t0 =>
      cases hloop : extractTablesLoop extractTable rest with
      | error e => simp [extractTablesLoop, hn, hloop] at h
      | ok ts2 =>
        simp [extractTablesLoop, hn, hloop] at h
        subst h
        rcases List.mem_cons.mp ht with heq | hmem
        · exact ⟨n, List.mem_cons_self n rest, heq ▸ hn⟩
        · obtain ⟨m, hm, hok⟩ := ih ts2 hloop t hmem
          exact ⟨m, List.mem_cons_of_mem n hm, hok⟩

/-- C5: Every `Relation` present in a schema produced by any of the three
extractors carries `Cardinality = "N:1"` — the PostgreSQL, MySQL and
SQLite relation extractors all hardcode the tag, so no extraction path
ever records another cardinality. -/
theorem C5_relations_cardinality_N1 :
    (∀ (cat : PGCatalog) (req : List String),
      ∀ t ∈ (pgExtractSchema cat req).Tables, ∀ r ∈ t.Relations,
        r.Cardinality = "N:1")
    ∧ (∀ (cat : MySQLCatalog) (req : List String) (s : Schema),
      mysqlExtractSchema cat req = .ok s →
      ∀ t ∈ s.Tables, ∀ r ∈ t.Relations, r.Cardinality = "N:1")
    ∧ (∀ (cat : SQLiteCatalog) (req : List String),
      ∀ t ∈ (sqliteExtractSchema cat req).Tables, ∀ r ∈ t.Relations,
        r.Cardinality = "N:1") := by
  refine ⟨?_, ?_, ?_⟩
  · intro cat req t ht r hr
    simp [pgExtractSchema] at ht
    obtain ⟨n, _, hn⟩ := ht
    subst hn
    simp [pgExtractTable, pgExtractRelations] at hr
    rcases hr with ⟨x, y, z, -, rfl⟩
    rfl
  · intro cat req s hs t ht r hr
    unfold mysqlExtractSchema ExtractSchema at hs
    cases hl : extractTablesLoop (mysqlExtractTable cat)
        (if req.isEmpty then cat.tables else req) with
    | error e =>
      rw [hl] at hs
      exact absurd hs (by simp)
    | ok ts =>
      rw [hl] at hs
      have hsts : s = ⟨ts⟩ := by
        cases hs
        rfl
      subst hsts
      obtain ⟨n, -, hok⟩ := extractTablesLoop_mem_ok (mysqlExtractTable cat) _ ts hl t ht
      have hrels : t.Relations = mysqlExtractRelations cat n := by
        cases hcols : mysqlColumnsLoop cat n (cat.columns n) with
        | error e => simp [mysqlExtractTable, hcols] at hok
        | ok cols =>
          simp [mysqlExtractTable, hcols] at hok
          rw [← hok]
      rw [hrels] at hr
      simp [mysqlExtractRelations] at hr
      rcases hr with ⟨x, y, z, -, rfl⟩
      rfl
  · intro cat req t ht r hr
    simp [sqliteExtractSchema] at ht
    obtain ⟨n, _, hn⟩ := ht
    subst hn
    simp [sqliteExtractTable, sqliteExtractRelations] at hr
    rcases hr with ⟨row, -, rfl⟩
    rfl

/-- Witness for `C5_relations_cardinality_N1`: concrete one-table
catalogs for all three backends, each with one foreign key. -/
theorem C5_relations_cardinality_N1_witness :
    (Relation.Cardinality ⟨"u", "id", "c", "N:1"⟩ = "N:1")
    ∧ (∀ t ∈ (pgExtractSchema
        ⟨["t"], fun _ => [], fun _ => [], fun _ => [],
          fun _ => [("c", "u", "id")], fun _ => [], []⟩ []).Tables,
        ∀ r ∈ t.Relations, r.Cardinality = "N:1")
    ∧ (∀ t ∈ (⟨[⟨"t", [], [⟨"u", "id", "c", "N:1"⟩], [], []⟩]⟩ : Schema).Tables,
        ∀ r ∈ t.Relations, r.Cardinality = "N:1")
    ∧ (∀ t ∈ (sqliteExtractSchema
        ⟨["t"], fun _ => [], fun _ => [], fun _ => [],
          fun _ => [⟨0, 0, "u", "c", "id", "NO ACTION", "NO ACTION", "NONE"⟩]⟩ []).Tables,
        ∀ r ∈ t.Relations, r.Cardinality = "N:1") := by
  refine ⟨rfl, ?_, ?_, ?_⟩
  · exact C5_relations_cardinality_N1.1
      ⟨["t"], fun _ => [], fun _ => [], fun _ => [],
        fun _ => [("c", "u", "id")], fun _ => [], []⟩ []
  · exact C5_relations_cardinality_N1.2.1
      ⟨["t"], fun _ => [], fun _ => [], fun _ => [], fun _ => [("c", "u", "id")],
        fun _ => []⟩ [] ⟨[⟨"t", [], [⟨"u", "id", "c", "N:1"⟩], [], []⟩]⟩ rfl
  · exact C5_relations_cardinality_N1.2.2
      ⟨["t"], fun _ => [], fun _ => [], fun _ => [],
        fun _ => [⟨0, 0, "u", "c", "id", "NO ACTION", "NO ACTION", "NONE"⟩]⟩ []

/- ### C7: what the per-backend uniqueness flags actually mean -/

/-- The PostgreSQL catalog used to refute C7: table `t` has columns `a`
(also the primary key) and `b`, and one multi-column constraint
`UNIQUE (a, b)`; no single-column unique constraint exists. -/
def c7PGCatalog : PGCatalog :=
  { tables := ["t"]
    columns := fun n =>
      if n = "t" then
        [⟨"a", "integer", "NO", none, "int4", none⟩,
         ⟨"b", "integer", "NO", none, "int4", none⟩]
      else []
    uniqueConstraints := fun n => if n = "t" then [["a", "b"]] else []
    primaryKey := fun n => if n = "t" then ["a"] else []
    foreignKeys := fun _ => []
    indexes := fun _ => []
    enumRows := [] }

/-- C7 counterexample: on PostgreSQL, a column participating only in a
multi-column `UNIQUE (a, b)` constraint gets `IsUnique = true` — and `a`
is simultaneously the primary-key column, so a primary-key column carries
the flag too.  Both halves contradict the claim that the flag requires a
single-column constraint and excludes primary-key columns on all three
backends. -/
theorem C7_unique_flag_counterexample :
    ((pgExtractColumns c7PGCatalog "t").1.map (fun c => (c.Name, c.IsUnique))
      = [("a", true), ("b", true)])
    ∧ c7PGCatalog.primaryKey "t" = ["a"]
    ∧ (∀ uc ∈ c7PGCatalog.uniqueConstraints "t", uc.length ≠ 1) := by
  refine ⟨by decide, by decide, by decide⟩

theorem pgEnumUpdate_preserves (m : String → List String) (c : Column) :
    ((if (m c.«Type»).isEmpty then c else { c with EnumValues := m c.«Type» }).Name,
     (if (m c.«Type»).isEmpty then c else { c with EnumValues := m c.«Type» }).IsUnique)
      = (c.Name, c.IsUnique) := by
  split <;> rfl

theorem mysqlColumnStep_name_unique (cat : MySQLCatalog) (tn : String)
    (r : MySQLColumnRow) (c : Column) (h : mysqlColumnStep cat tn r = .ok c) :
    c.Name = r.column_name ∧ c.IsUnique = mysqlIsUnique cat tn r.column_name := by
  simp only [mysqlColumnStep] at h
  split at h
  · split at h
    · exact absurd h (by simp)
    · cases h
      exact ⟨rfl, rfl⟩
    · cases h
      exact ⟨rfl, rfl⟩
  · cases h
    exact ⟨rfl, rfl⟩

theorem mysqlColumnsLoop_names_unique (cat : MySQLCatalog) (tn : String) :
    ∀ (rows : List MySQLColumnRow) (cols : List Column),
      mysqlColumnsLoop cat tn rows = .ok cols →
      cols.map (fun c => (c.Name, c.IsUnique))
        = rows.map (fun r => (r.column_name, mysqlIsUnique cat tn r.column_name)) := by
  intro rows
  induction rows with
  | nil =>
    intro cols h
    simp [mysqlColumnsLoop] at h
    subst h
    simp
  | cons r rest ih =>
    intro cols h
    cases hstep : mysqlColumnStep cat tn r with
    | error e => simp [mysqlColumnsLoop, hstep] at h
    | ok c =>
      cases hloop : mysqlColumnsLoop cat tn rest with
      | error e => simp [mysqlColumnsLoop, hstep, hloop] at h
      | ok cs =>
        simp [mysqlColumnsLoop, hstep, hloop] at h
        subst h
        obtain ⟨hname, huniq⟩ := mysqlColumnStep_name_unique cat tn r c hstep
        simp [hname, huniq, ih cs hloop]

/-- C7 (amended): the uniqueness flag is backend-dependent.  On SQLite it
is as the claim states — set iff the column is not a primary-key column
and some unique index covers exactly that one column.  On PostgreSQL and
MySQL the flag is set iff the column participates in **any**
`UNIQUE`-typed constraint, of any arity, regardless of primary-key
membership (a primary-key constraint itself is not `UNIQUE`-typed and so
does not set the flag); in all three pipelines the flag of each produced
column is exactly this predicate applied to the column's own name. -/
theorem C7_unique_flag_amended :
    (∀ (cat : PGCatalog) (tn cn : String),
      pgIsUnique cat tn cn = true ↔ ∃ uc ∈ cat.uniqueConstraints tn, cn ∈ uc)
    ∧ (∀ (cat : PGCatalog) (tn : String),
      (pgExtractColumns cat tn).1.map (fun c => (c.Name, c.IsUnique))
        = (cat.columns tn).map (fun r => (r.column_name, pgIsUnique cat tn r.column_name)))
    ∧ (∀ (cat : MySQLCatalog) (tn cn : String),
      mysqlIsUnique cat tn cn = true ↔ ∃ uc ∈ cat.uniqueConstraints tn, cn ∈ uc)
    ∧ (∀ (cat : MySQLCatalog) (tn : String) (cols : List Column),
      mysqlColumnsLoop cat tn (cat.columns tn) = .ok cols →
      cols.map (fun c => (c.Name, c.IsUnique))
        = (cat.columns tn).map (fun r => (r.column_name, mysqlIsUnique cat tn r.column_name)))
    ∧ (∀ (cat : SQLiteCatalog) (tn cn : String) (pkColumns : List String),
      sqliteIsColumnUnique cat tn cn pkColumns = true ↔
        (cn ∉ pkColumns ∧ ∃ idx ∈ cat.indexList tn,
          idx.unique = 1 ∧ (cat.indexInfo idx.name).filterMap id = [cn]))
    ∧ (∀ (cat : SQLiteCatalog) (tn : String),
      (sqliteExtractColumns cat tn).map (fun c => (c.Name, c.IsUnique))
        = (cat.tableInfo tn).map (fun r => (r.name,
            sqliteIsColumnUnique cat tn r.name
              (((cat.tableInfo tn).filter (fun r2 => decide (0 < r2.pk))).map
                (fun r2 => r2.name))))) := by
  refine ⟨?_, ?_, ?_, ?_, ?_, ?_⟩
  · intro cat tn cn
    simp [pgIsUnique, List.any_eq_true]
  · intro cat tn
    simp only [pgExtractColumns]
    split
    · rw [List.map_map]
      rfl
    · rw [List.map_map, List.map_map]
      apply List.map_congr_left
      intro r _
      exact (pgEnumUpdate_preserves _ _).trans rfl
  · intro cat tn cn
    simp [mysqlIsUnique, List.any_eq_true]
  · intro cat tn cols h
    exact mysqlColumnsLoop_names_unique cat tn (cat.columns tn) cols h
  · intro cat tn cn pkColumns
    cases hpk : pkColumns.contains cn with
    | true =>
      have hmem : cn ∈ pkColumns := by simpa using hpk
      simp [sqliteIsColumnUnique, hpk, hmem]
    | false =>
      have hmem : cn ∉ pkColumns := by simpa using hpk
      simp [sqliteIsColumnUnique, hpk, hmem, List.any_eq_true]
  · intro cat tn
    simp only [sqliteExtractColumns, List.map_map]
    rfl

/-- A one-table MySQL catalog for the `C7_unique_flag_amended` witness:
column `a` participates in the multi-column constraint `UNIQUE (a, b)`. -/
def c7MySQLCatalog : MySQLCatalog :=
  { tables := ["t"]
    columns := fun n => if n = "t" then [⟨"a", "int", "NO", none, "int"⟩] else []
    uniqueConstraints := fun n => if n = "t" then [["a", "b"]] else []
    primaryKey := fun _ => []
    foreignKeys := fun _ => []
    indexes := fun _ => [] }

/-- Witness for the hypothesis-bearing MySQL conjunct of
`C7_unique_flag_amended`. -/
theorem C7_unique_flag_amended_witness :
    ∃ cols : List Column,
      mysqlColumnsLoop c7MySQLCatalog "t" (c7MySQLCatalog.columns "t") = .ok cols
      ∧ cols.map (fun c => (c.Name, c.IsUnique)) = [("a", true)] := by
  refine ⟨[⟨"a", "int", false, none, true, [], none⟩], rfl, ?_⟩
  rw [C7_unique_flag_amended.2.2.2.1 c7MySQLCatalog "t"
    [⟨"a", "int", false, none, true, [], none⟩] rfl]
  decide

/- ### C8: the enumeration round-trip -/

/-- One declared enum value as it appears inside the stored type string:
wrapped in single quotes. -/
def quotedChars (v : String) : List Char :=
  quoteChar :: (v.data ++ [quoteChar])

/-- Comma-join of character-list parts. -/
def joinComma : List (List Char) → List Char
  | [] => []
  | [p] => p
  | p :: q :: ps => p ++ ',' :: joinComma (q :: ps)

/-- The stored MySQL column type for a declared enum value list, per the
spelling documented at `mysql_extractor.go:190-191`: MySQL stores enum
types as `enum(` followed by the single-quoted values joined with commas,
followed by `)`. -/
def mysqlStoredEnumType (declared : List String) : String :=
  String.mk
    ('e' :: 'n' :: 'u' :: 'm' :: '(' :: (joinComma (declared.map quotedChars) ++ [')']))

theorem splitOnComma_ne_nil : ∀ (l : List Char), splitOnComma l ≠ [] := by
  intro l
  induction l with
  | nil => simp [splitOnComma]
  | cons c rest ih =>
    simp only [splitOnComma]
    rcases hs : splitOnComma rest with _ | ⟨p, ps⟩
    · exact absurd hs ih
    · by_cases hc : c = ',' <;> simp [hc]

theorem splitOnComma_no_comma (l : List Char) (h : ',' ∉ l) :
    splitOnComma l = [l] := by
  induction l with
  | nil => rfl
  | cons c rest ih =>
    have hc : c ≠ ',' := fun hc => h (hc ▸ List.mem_cons_self c rest)
    have hrest := ih (fun hm => h (List.mem_cons_of_mem c hm))
    simp [splitOnComma, hrest, hc]

theorem splitOnComma_append (b : List Char) :
    ∀ (a : List Char), ',' ∉ a →
      splitOnComma (a ++ ',' :: b) = a :: splitOnComma b := by
  intro a
  induction a with
  | nil =>
    intro _
    simp only [List.nil_append, splitOnComma]
    cases hs : splitOnComma b with
    | nil => exact absurd hs (splitOnComma_ne_nil b)
    | cons p ps => simp
  | cons c a ih =>
    intro h
    have hc : c ≠ ',' := fun hc => h (hc ▸ List.mem_cons_self c a)
    have ha := ih (fun hm => h (List.mem_cons_of_mem c hm))
    simp only [List.cons_append, splitOnComma, List.append_eq]
    rw [ha]
    simp [hc]

theorem comma_not_mem_quotedChars (v : String) (h : ',' ∉ v.data) :
    ',' ∉ quotedChars v := by
  intro hm
  simp only [quotedChars, List.mem_cons, List.mem_append, List.mem_singleton] at hm
  rcases hm with h1 | h2 | h3
  · exact absurd h1.symm (by decide)
  · exact h h2
  · exact absurd h3.symm (by decide)

theorem trimSpaceChars_quotedChars (v : String) :
    trimSpaceChars (quotedChars v) = quotedChars v := by
  have hdrop : ∀ (d : List Char),
      (quoteChar :: (d ++ [quoteChar])).dropWhile (fun c => c.isWhitespace)
        = quoteChar :: (d ++ [quoteChar]) := by
    intro d
    rw [List.dropWhile_cons, if_neg (by decide)]
  have hrev : ∀ (d : List Char),
      (quoteChar :: (d ++ [quoteChar])).reverse
        = quoteChar :: (d.reverse ++ [quoteChar]) := by
    intro d
    simp
  show trimSpaceChars (quoteChar :: (v.data ++ [quoteChar]))
    = quoteChar :: (v.data ++ [quoteChar])
  unfold trimSpaceChars
  rw [hdrop v.data, hrev v.data, hdrop v.data.reverse, hrev v.data.reverse,
    List.reverse_reverse]

theorem stripQuotes_quotedChars (v : String) :
    stripQuotes (quotedChars v) = v.data := by
  have hlen : 2 ≤ (quotedChars v).length := by
    have h2 : (quotedChars v).length = v.data.length + 2 := by
      show (quoteChar :: (v.data ++ [quoteChar])).length = v.data.length + 2
      simp
    omega
  have hlast : (quotedChars v).getLast? = some quoteChar := by
    show ((quoteChar :: v.data) ++ [quoteChar]).getLast? = some quoteChar
    exact List.getLast?_concat _
  have hc : 2 ≤ (quotedChars v).length ∧ (quotedChars v).head? = some quoteChar
      ∧ (quotedChars v).getLast? = some quoteChar := ⟨hlen, rfl, hlast⟩
  unfold stripQuotes
  rw [if_pos hc]
  rw [show (quotedChars v).drop 1 = v.data ++ [quoteChar] from rfl,
    List.dropLast_concat]

theorem roundtrip_chars : ∀ (vs : List String), vs ≠ [] →
    (∀ v ∈ vs, ',' ∉ v.data) →
    (splitOnComma (joinComma (vs.map quotedChars))).map
      (fun p => String.mk (stripQuotes (trimSpaceChars p))) = vs := by
  intro vs
  induction vs with
  | nil => intro h; exact absurd rfl h
  | cons v rest ih =>
    intro _ hcomma
    cases rest with
    | nil =>
      have hv : ',' ∉ quotedChars v :=
        comma_not_mem_quotedChars v (hcomma v (List.mem_cons_self v []))
      simp only [List.map_cons, List.map_nil, joinComma, splitOnComma_no_comma _ hv,
        List.map_cons, List.map_nil, trimSpaceChars_quotedChars, stripQuotes_quotedChars]
    | cons w rest2 =>
      have hv : ',' ∉ quotedChars v :=
        comma_not_mem_quotedChars v (hcomma v (List.mem_cons_self v (w :: rest2)))
      have hrest := ih (by simp) (fun u hu => hcomma u (List.mem_cons_of_mem v hu))
      simp only [List.map_cons, joinComma, splitOnComma_append _ _ hv, List.map_cons,
        trimSpaceChars_quotedChars, stripQuotes_quotedChars]
      rw [show String.mk v.data = v from rfl]
      simp only [List.map_cons, joinComma] at hrest
      rw [hrest]

/-- Evaluation of `extractEnumValues` on a stored enum type string with
an arbitrary interior: the prefix check succeeds, the first `(` is at
position 4, the last `)` is the final character, and the parser returns
the split-trim-unquote of the interior. -/
theorem extractEnumValues_stored (inner : List Char) :
    extractEnumValues
        (String.mk ('e' :: 'n' :: 'u' :: 'm' :: '(' :: (inner ++ [')'])))
      = .ok (some ((splitOnComma inner).map
          (fun p => String.mk (stripQuotes (trimSpaceChars p))))) := by
  have hstart : indexOfChar
      (String.mk ('e' :: 'n' :: 'u' :: 'm' :: '(' :: (inner ++ [')']))).data '('
      = some 4 := rfl
  have hlast : lastIndexOfChar
      (String.mk ('e' :: 'n' :: 'u' :: 'm' :: '(' :: (inner ++ [')']))).data ')'
      = some (inner.length + 5) := by
    show lastIndexOfChar ('e' :: 'n' :: 'u' :: 'm' :: '(' :: (inner ++ [')'])) ')'
      = some (inner.length + 5)
    unfold lastIndexOfChar
    have hrev : ('e' :: 'n' :: 'u' :: 'm' :: '(' :: (inner ++ [')'])).reverse
        = ')' :: ('e' :: 'n' :: 'u' :: 'm' :: '(' :: inner).reverse := by
      rw [show ('e' :: 'n' :: 'u' :: 'm' :: '(' :: (inner ++ [')']))
          = ('e' :: 'n' :: 'u' :: 'm' :: '(' :: inner) ++ [')'] by simp]
      rw [List.reverse_append]
      rfl
    rw [hrev]
    simp only [indexOfChar, if_pos rfl, Option.map_some]
    simp [List.length_append]
  have hsw : startsWithEnumParen
      (String.mk ('e' :: 'n' :: 'u' :: 'm' :: '(' :: (inner ++ [')']))).data = true := rfl
  simp only [extractEnumValues, hsw, if_pos, hstart, hlast]
  rw [if_neg (by omega)]
  have hdrop : (String.mk ('e' :: 'n' :: 'u' :: 'm' :: '(' :: (inner ++ [')']))).data.drop
      (4 + 1) = inner ++ [')'] := rfl
  rw [hdrop]
  have htake : (inner ++ [')']).take (inner.length + 5 - 4 - 1) = inner := by
    have h5 : inner.length + 5 - 4 - 1 = inner.length := by omega
    rw [h5, List.take_left]
  rw [htake]

/-- C8 counterexample: for the declared value list `["a,b"]` (a single
value containing a comma — legal in MySQL), the stored type string is
`enum(` + quote + `a,b` + quote + `)` and the parser mis-splits it into
two wrong values, so the recovered list does not equal the declared list
(it does not even have the declared length). -/
theorem C8_enum_roundtrip_counterexample :
    extractEnumValues (mysqlStoredEnumType [String.mk ['a', ',', 'b']])
      = .ok (some [String.mk [quoteChar, 'a'], String.mk ['b', quoteChar]])
    ∧ extractEnumValues (mysqlStoredEnumType [String.mk ['a', ',', 'b']])
      ≠ .ok (some [String.mk ['a', ',', 'b']]) := by
  have hpos : extractEnumValues (mysqlStoredEnumType [String.mk ['a', ',', 'b']])
      = .ok (some [String.mk [quoteChar, 'a'], String.mk ['b', quoteChar]]) := rfl
  refine ⟨hpos, ?_⟩
  intro h
  rw [hpos] at h
  have hlists : [String.mk [quoteChar, 'a'], String.mk ['b', quoteChar]]
      = [String.mk ['a', ',', 'b']] := by
    simp only [Except.ok.injEq, Option.some.injEq] at h
    exact h
  exact absurd hlists (by decide)

/-- C8 (amended): the enumeration round-trip holds with a proviso on
MySQL.  (1) For every non-empty declared value list whose values contain
no comma, the MySQL parser recovers exactly the declared list, in order,
duplicates preserved (values containing a comma are mis-split, as the
counterexample shows); the parse reads the column's own type string and
issues no catalog lookup.  (2) On PostgreSQL, the batched
`extractEnumValuesMap` lookup recovers, for each requested type, exactly
that type's catalog rows in catalog (declared) order — no reordering, no
collapsing of duplicates.  (3) The PostgreSQL column extraction issues at
most one enum lookup per table regardless of how many enumerated columns
were discovered, and every `USER-DEFINED` column's type name is part of
the one batched request.  (4) Every extracted PostgreSQL column's
`EnumValues` is either empty or exactly the batched map's value at the
column's type. -/
theorem C8_enum_roundtrip_amended :
    (∀ (vs : List String), vs ≠ [] → (∀ v ∈ vs, ',' ∉ v.data) →
      extractEnumValues (mysqlStoredEnumType vs) = .ok (some vs))
    ∧ (∀ (cat : PGCatalog) (enumTypeNames : List String) (ty : String),
      ty ∈ enumTypeNames →
      pgExtractEnumValuesMap cat enumTypeNames ty
        = (cat.enumRows.filter (fun r => r.1 == ty)).map (fun r => r.2))
    ∧ (∀ (cat : PGCatalog) (tn : String), (pgExtractColumns cat tn).2 ≤ 1
      ∧ ∀ r ∈ cat.columns tn, r.data_type = "USER-DEFINED" →
        r.udt_name ∈ ((cat.columns tn).filter
          (fun r2 => r2.data_type == "USER-DEFINED")).map (fun r2 => r2.udt_name))
    ∧ (∀ (cat : PGCatalog) (tn : String), ∀ c ∈ (pgExtractColumns cat tn).1,
      c.EnumValues = []
      ∨ c.EnumValues = pgExtractEnumValuesMap cat
          (((cat.columns tn).filter (fun r2 => r2.data_type == "USER-DEFINED")).map
            (fun r2 => r2.udt_name)) c.«Type») := by
  refine ⟨?_, ?_, ?_, ?_⟩
  · intro vs hne hcomma
    have hstored : mysqlStoredEnumType vs
        = String.mk ('e' :: 'n' :: 'u' :: 'm' :: '('
            :: (joinComma (vs.map quotedChars) ++ [')'])) := rfl
    rw [hstored, extractEnumValues_stored, roundtrip_chars vs hne hcomma]
  · intro cat enumTypeNames ty hty
    simp only [pgExtractEnumValuesMap, List.filter_filter]
    apply congrArg
    apply List.filter_congr
    intro r _
    cases hbeq : (r.1 == ty) with
    | true =>
      have : r.1 = ty := by simpa using hbeq
      simp [this, hty]
    | false => simp
  · intro cat tn
    constructor
    · simp only [pgExtractColumns]
      split
      · exact Nat.zero_le 1
      · exact Nat.le_refl 1
    · intro r hr hud
      exact List.mem_map_of_mem _ (List.mem_filter.mpr ⟨hr, by simp [hud]⟩)
  · intro cat tn c hc
    simp only [pgExtractColumns] at hc
    split at hc
    · simp at hc
      obtain ⟨r, -, hr⟩ := hc
      left
      rw [← hr]
    · simp at hc
      obtain ⟨r, -, hr⟩ := hc
      rw [← hr]
      split
      · left
        rfl
      · right
        rfl

/-- Witness for the hypothesis-bearing conjuncts of
`C8_enum_roundtrip_amended`: the two-value list `pending, active` (no
commas) round-trips through the MySQL parser, and a two-row PostgreSQL
`mood` enum is recovered in catalog order by the batched map. -/
theorem C8_enum_roundtrip_amended_witness :
    extractEnumValues (mysqlStoredEnumType ["pending", "active"])
      = .ok (some ["pending", "active"])
    ∧ pgExtractEnumValuesMap
        ⟨[], fun _ => [], fun _ => [], fun _ => [], fun _ => [], fun _ => [],
          [("mood", "happy"), ("mood", "sad")]⟩ ["mood"] "mood"
      = ["happy", "sad"] := by
  constructor
  · exact C8_enum_roundtrip_amended.1 ["pending", "active"] (by decide) (by decide)
  · rw [C8_enum_roundtrip_amended.2.1 _ ["mood"] "mood" (by decide)]
    decide

/- ### Substring testing used to state document-content facts -/

/-- Character-list prefix test. -/
def hasPrefixChars : List Char → List Char → Bool
  | [], _ => true
  | _ :: _, [] => false
  | a :: as, b :: bs => a == b && hasPrefixChars as bs

/-- Character-list infix test. -/
def hasInfixChars (hay sub : List Char) : Bool :=
  match hay with
  | [] => sub.isEmpty
  | _ :: t => hasPrefixChars sub hay || hasInfixChars t sub

/-- `sub` occurs as a contiguous substring of `s`. -/
def strContains (s sub : String) : Bool :=
  hasInfixChars s.data sub.data

/- ### The structured (markdown) index rendering (`markdown.go`) -/

/-- The suppression test of `MarkdownFormatter.formatIndexes`
(`markdown.go:392-407`): a unique index over exactly one column is
skipped when some column of the table has that name and its own
`IsUnique` flag set.  (The Go code additionally requires `columns != nil`;
a nil slice and an empty list make the inner loop find nothing either
way, so the test below is equivalent.) -/
def indexSuppressed (idx : Index) (columns : List Column) : Bool :=
  idx.IsUnique &&
    (match idx.Columns with
     | [c0] => columns.any (fun col => col.Name == c0 && col.IsUnique)
     | _ => false)

/-- One rendered index bullet (`markdown.go:417-427`). -/
def formatIndexLine (idx : Index) : String :=
  if idx.IsUnique then
    "- " ++ idx.Name ++ " on (" ++ String.intercalate ", " idx.Columns ++ "), unique\n"
  else
    "- " ++ idx.Name ++ " on (" ++ String.intercalate ", " idx.Columns ++ ")\n"

/-- `MarkdownFormatter.formatIndexes` (`markdown.go:387-429`) as the text
it writes: nothing at all when no index survives the filter (which also
covers the early return for an empty index list), otherwise the
`### Index` header, the surviving indexes in order, and a blank line. -/
def formatIndexes (indexes : List Index) (columns : List Column) : String :=
  let filtered := indexes.filter (fun idx => !(indexSuppressed idx columns))
  if filtered.isEmpty then ""
  else "### Index\n\n" ++ String.join (filtered.map formatIndexLine) ++ "\n"

/-- C9: In the structured (markdown) rendering an index is omitted iff it
is unique, has exactly one column, and that column's own uniqueness flag
is set in the table's column list; every other index is rendered, in
order (the filtered list below preserves order); and when every index is
omitted the whole section — header included — is not emitted. -/
theorem C9_formatIndexes_suppression :
    (∀ (idx : Index) (columns : List Column),
      indexSuppressed idx columns = true ↔
        (idx.IsUnique = true ∧ ∃ c0, idx.Columns = [c0]
          ∧ ∃ col ∈ columns, col.Name = c0 ∧ col.IsUnique = true))
    ∧ (∀ (indexes : List Index) (columns : List Column),
      formatIndexes indexes columns =
        (if (indexes.filter (fun idx => !(indexSuppressed idx columns))).isEmpty then ""
         else "### Index\n\n"
           ++ String.join ((indexes.filter
                (fun idx => !(indexSuppressed idx columns))).map formatIndexLine)
           ++ "\n")) := by
  constructor
  · intro idx columns
    unfold indexSuppressed
    cases hcols : idx.Columns with
    | nil => simp
    | cons c0 rest =>
      cases rest with
      | nil => simp [List.any_eq_true]
      | cons c1 rest2 => simp
  · intro indexes columns
    rfl

/- ### The multi-file overview (`multifile.go:71-124`) -/

/-- The `sort.Slice` call of the overview writers
(`multifile.go:79-81` and `multifile.go:107-109`): a copy of the table
list sorted by name.  (Go's `sort.Slice` is an unstable sort under the
strict order `Name <`; `mergeSort` under `Name ≤` produces the same
sorted sequence — the two can differ only in the relative order of tables
with equal names, which the schema invariant rules out.) -/
def sortTablesByName (ts : List Table) : List Table :=
  ts.mergeSort (fun a b => decide (a.Name ≤ b.Name))

/-- One table bullet of `writeMarkdownOverview` (`multifile.go:83-95`):
the bold table name, annotated — when the table has outgoing relations —
with the `TargetTable` of every relation, in relation order, joined by
`", "` (no deduplication appears in the loop at `multifile.go:88-92`). -/
def overviewTableLine (t : Table) : String :=
  "- **" ++ t.Name ++ "**"
    ++ (if t.Relations.isEmpty then ""
        else " (refs: " ++ String.intercalate ", " (t.Relations.map
          (fun rel => rel.TargetTable)) ++ ")")
    ++ "\n"

/-- `writeMarkdownOverview` (`multifile.go:71-98`) as the text it
writes. -/
def writeMarkdownOverview (s : Schema) (ext : String) : String :=
  "# Schema Overview\n\n"
    ++ "Each table has a corresponding file: `<table_name>" ++ ext ++ "`\n\n"
    ++ "## Tables\n\n"
    ++ String.join ((sortTablesByName s.Tables).map overviewTableLine)

/-- One table line of `writeTextOverview` (`multifile.go:111-121`). -/
def textOverviewTableLine (t : Table) : String :=
  t.Name
    ++ (if t.Relations.isEmpty then ""
        else " (refs: " ++ String.intercalate "," (t.Relations.map
          (fun rel => rel.TargetTable)) ++ ")")
    ++ "\n"

/-- `writeTextOverview` (`multifile.go:100-124`) as the text it writes. -/
def writeTextOverview (s : Schema) (ext : String) : String :=
  "SCHEMA OVERVIEW\n"
    ++ "Each table has a file: <table_name>" ++ ext ++ "\n\n"
    ++ String.join ((sortTablesByName s.Tables).map textOverviewTableLine)

/-- C4 counterexample: a table `a` with two foreign keys both targeting
`b` is annotated `(refs: b, b)` in the overview — the referenced table
appears twice, not once, so the annotation is not the list of distinct
referenced table names. -/
theorem C4_overview_counterexample :
    overviewTableLine ⟨"a", [], [⟨"b", "id", "x", "N:1"⟩, ⟨"b", "id", "y", "N:1"⟩], [], []⟩
      = "- **a** (refs: b, b)\n"
    ∧ writeMarkdownOverview
        ⟨[⟨"a", [], [⟨"b", "id", "x", "N:1"⟩, ⟨"b", "id", "y", "N:1"⟩], [], []⟩]⟩ ".md"
      = "# Schema Overview\n\n"
        ++ "Each table has a corresponding file: `<table_name>.md`\n\n"
        ++ "## Tables\n\n"
        ++ "- **a** (refs: b, b)\n"
    ∧ ([⟨"b", "id", "x", "N:1"⟩, ⟨"b", "id", "y", "N:1"⟩] : List Relation).map
        (fun rel => rel.TargetTable) ≠
        (([⟨"b", "id", "x", "N:1"⟩, ⟨"b", "id", "y", "N:1"⟩] : List Relation).map
          (fun rel => rel.TargetTable)).dedup := by
  refine ⟨rfl, ?_, by decide⟩
  unfold writeMarkdownOverview sortTablesByName
  rw [List.mergeSort_singleton]
  rfl

/-- C4 (amended): the overview lists every table of the schema exactly
once (the emitted sequence is a permutation of the schema's tables),
sorted by table name; a table with at least one outgoing relation is
annotated with the `TargetTable` names of **all** its relations in
relation order — duplicates retained, not deduplicated — and a table with
no outgoing relations gets no annotation.  The same holds for the text
overview's lines. -/
theorem C4_overview_amended (s : Schema) (ext : String) :
    (sortTablesByName s.Tables).Perm s.Tables
    ∧ List.Pairwise (fun a b : Table => a.Name ≤ b.Name) (sortTablesByName s.Tables)
    ∧ writeMarkdownOverview s ext
      = "# Schema Overview\n\n"
        ++ "Each table has a corresponding file: `<table_name>" ++ ext ++ "`\n\n"
        ++ "## Tables\n\n"
        ++ String.join ((sortTablesByName s.Tables).map overviewTableLine)
    ∧ (∀ t : Table, t.Relations = [] → overviewTableLine t = "- **" ++ t.Name ++ "**\n")
    ∧ (∀ t : Table, t.Relations ≠ [] →
        overviewTableLine t = "- **" ++ t.Name ++ "**" ++ " (refs: "
          ++ String.intercalate ", " (t.Relations.map (fun rel => rel.TargetTable))
          ++ ")" ++ "\n")
    ∧ (∀ t : Table, t.Relations ≠ [] →
        textOverviewTableLine t = t.Name ++ " (refs: "
          ++ String.intercalate "," (t.Relations.map (fun rel => rel.TargetTable))
          ++ ")" ++ "\n") := by
  refine ⟨List.mergeSort_perm s.Tables _, ?_, rfl, ?_, ?_, ?_⟩
  · have hsorted := @List.sorted_mergeSort Table
      (fun a b : Table => decide (a.Name ≤ b.Name))
      (fun a b c hab hbc => by
        simp only [decide_eq_true_eq] at *
        exact le_trans hab hbc)
      (fun a b => by
        simp only [Bool.or_eq_true, decide_eq_true_eq]
        exact le_total a.Name b.Name)
      s.Tables
    exact hsorted.imp (fun h => by simpa using h)
  · intro t ht
    simp [overviewTableLine, ht, String.append_assoc]
  · intro t ht
    have h0 : t.Relations.isEmpty = false := by
      simpa [List.isEmpty_iff] using ht
    simp only [overviewTableLine, h0, Bool.false_eq_true, if_false]
    simp only [← String.append_assoc]
  · intro t ht
    have h0 : t.Relations.isEmpty = false := by
      simpa [List.isEmpty_iff] using ht
    simp only [textOverviewTableLine, h0, Bool.false_eq_true, if_false]
    simp only [← String.append_assoc]

/-- Witness for the hypothesis-bearing conjuncts of
`C4_overview_amended`: a table with one outgoing relation gets the
annotated line. -/
theorem C4_overview_amended_witness :
    overviewTableLine ⟨"users", [], [⟨"roles", "id", "role_id", "N:1"⟩], [], []⟩
      = "- **users** (refs: roles)\n" := by
  have h := (C4_overview_amended ⟨[]⟩ ".md").2.2.2.2.1
    ⟨"users", [], [⟨"roles", "id", "role_id", "N:1"⟩], [], []⟩ (by decide)
  rw [h]
  rfl

/- ### The per-table multi-file document (`multifile.go:127-226`) -/

/-- `formatCompactConstraints` (`multifile.go:266-299`): PK marker (by
membership of the column name in the primary key), `UNIQUE`, `NOT NULL`,
`DEFAULT`, `CHECK`, joined by `", "`. -/
def formatCompactConstraints (col : Column) (primaryKey : List String) : String :=
  String.intercalate ", "
    ((if primaryKey.contains col.Name then ["PK"] else [])
      ++ (if col.IsUnique then ["UNIQUE"] else [])
      ++ (if col.Nullable then [] else ["NOT NULL"])
      ++ (match col.DefaultValue with
          | some v => ["DEFAULT " ++ v]
          | none => [])
      ++ (match col.CheckConstraint with
          | some e => ["CHECK(" ++ e ++ ")"]
          | none => []))

/-- One column bullet of the markdown branch of `writeTableFile`
(`multifile.go:146-159`). -/
def multifileColumnLine (col : Column) (primaryKey : List String) : String :=
  let typeStr :=
    if col.EnumValues.isEmpty then col.«Type»
    else col.«Type» ++ " (" ++ String.intercalate "|" col.EnumValues ++ ")"
  let constraintStr := formatCompactConstraints col primaryKey
  if constraintStr = "" then "- **" ++ col.Name ++ ":** " ++ typeStr ++ "\n"
  else "- **" ++ col.Name ++ ":** " ++ typeStr ++ ", " ++ constraintStr ++ "\n"

/-- One outgoing-relation bullet (`multifile.go:166-172`). -/
def multifileRelationLine (rel : Relation) : String :=
  "- " ++ rel.SourceColumn ++ " → " ++ rel.TargetTable ++ "." ++ rel.TargetColumn
    ++ " (" ++ rel.Cardinality ++ ")\n"

/-- One index bullet (`multifile.go:180-189`). -/
def multifileIndexLine (idx : Index) : String :=
  if idx.IsUnique then
    "- " ++ idx.Name ++ " on (" ++ String.intercalate ", " idx.Columns ++ "), unique\n"
  else
    "- " ++ idx.Name ++ " on (" ++ String.intercalate ", " idx.Columns ++ ")\n"

/-- One incoming-relation bullet of the `### Referenced by` section
(`multifile.go:199-202`): `- <SourceTable>.<SourceColumn> →
<TargetTable>.<TargetColumn> (<Cardinality>)` — the raw cardinality tag,
not a readable sentence, and the target qualified by its table name. -/
def multifileIncomingLine (rel : IncomingRelation) : String :=
  "- " ++ rel.SourceTable ++ "." ++ rel.SourceColumn ++ " → " ++ rel.TargetTable
    ++ "." ++ rel.TargetColumn ++ " (" ++ rel.Cardinality ++ ")\n"

/-- The markdown branch of `writeTableFile` (`multifile.go:138-204`) as
the text it writes for one table: header, columns, optional
`### References`, optional `### Idx`, and — when `findIncomingRelations`
is non-empty — the `### Referenced by` section. -/
def writeTableFileMarkdown (table : Table) (s : Schema) : String :=
  "## " ++ table.Name ++ "\n\n"
    ++ "### Columns\n" ++ "\n"
    ++ String.join (table.Columns.map (fun c => multifileColumnLine c table.PrimaryKey))
    ++ "\n"
    ++ (if table.Relations.isEmpty then ""
        else "### References\n" ++ "\n"
          ++ String.join (table.Relations.map multifileRelationLine) ++ "\n")
    ++ (if table.Indexes.isEmpty then ""
        else "### Idx\n" ++ "\n"
          ++ String.join (table.Indexes.map multifileIndexLine) ++ "\n")
    ++ (let incomingRels := findIncomingRelations table.Name s
        if incomingRels.isEmpty then ""
        else "### Referenced by\n\n"
          ++ String.join (incomingRels.map multifileIncomingLine))

/-- The PostgreSQL catalog of the spec's Scenario 1: `users (id PK,
username UNIQUE)` and `orders (id PK, user_id FK → users.id)`; the
catalog's default listing is alphabetical. -/
def c1Catalog : PGCatalog :=
  { tables := ["orders", "users"]
    columns := fun n =>
      if n = "orders" then
        [⟨"id", "integer", "NO", none, "int4", none⟩,
         ⟨"user_id", "integer", "NO", none, "int4", none⟩]
      else if n = "users" then
        [⟨"id", "integer", "NO", none, "int4", none⟩,
         ⟨"username", "character varying", "NO", none, "varchar", some 50⟩]
      else []
    uniqueConstraints := fun n => if n = "users" then [["username"]] else []
    primaryKey := fun n => if n = "orders" then ["id"] else if n = "users" then ["id"] else []
    foreignKeys := fun n => if n = "orders" then [("user_id", "users", "id")] else []
    indexes := fun _ => []
    enumRows := [] }

/-- C1: On the Scenario-1 schema, unfiltered extraction does yield
`orders.Relations = [{SourceColumn: user_id, TargetTable: users,
TargetColumn: id, Cardinality: N:1}]` and the resolver yields the single
incoming relation for `users` — but the users document's `### Referenced
by` section, as `writeTableFile` actually writes it, contains the line
`- orders.user_id → users.id (N:1)` and does **not** contain the line
`orders.user_id → id (many orders to one users)` that the claim (and the
repository's own README and committed `llm-docs` output) expect. -/
theorem C1_scenario_referenced_by :
    (pgExtractSchema c1Catalog []).Tables.map (fun t => t.Name) = ["orders", "users"]
    ∧ (pgExtractTable c1Catalog "orders").Relations
        = [⟨"users", "id", "user_id", "N:1"⟩]
    ∧ findIncomingRelations "users" (pgExtractSchema c1Catalog [])
        = [⟨"orders", "user_id", "users", "id", "N:1"⟩]
    ∧ strContains (writeTableFileMarkdown (pgExtractTable c1Catalog "users")
        (pgExtractSchema c1Catalog [])) "### Referenced by" = true
    ∧ strContains (writeTableFileMarkdown (pgExtractTable c1Catalog "users")
        (pgExtractSchema c1Catalog []))
        "- orders.user_id → users.id (N:1)" = true
    ∧ strContains (writeTableFileMarkdown (pgExtractTable c1Catalog "users")
        (pgExtractSchema c1Catalog []))
        "orders.user_id → id (many orders to one users)" = false := by
  refine ⟨by decide, by decide, by decide, by decide, by decide, by decide⟩

end LLMSchema
